import Mathlib

/-!
Verification of the Communage real-time translation core.

This file gives a shallow embedding of the parts of the program that the
checked properties talk about:

* `vadStep` / `vadRun` — the body of `VoiceActivityDetector.vad_generator`
  (src/voice_activity_detector.py, lines 125-167), modelled as a state
  machine over one incoming normalized chunk at a time.  A chunk carries its
  sample data together with the voiced flag that `webrtcvad.Vad.is_speech`
  returned for it (the classifier itself is an external library and is
  treated as an oracle supplying the flag).
* `resample_and_convert_chunk` — the frame normalizer
  (src/voice_activity_detector.py, lines 113-123); the external band-limited
  resampler `scipy.signal.resample` is a parameter that returns the
  requested number of samples.
* `selectLoopbackDevice` — `LoopbackDeviceStrategy.select_device`
  (src/voice_activity_detector.py, lines 45-66).
* `sentenceTranslatorCall` — `SentenceTranslator.__call__`
  (src/google_api.py, lines 135-175), with `GoogleTranslate` as an oracle.
* `recognizerFrom` / `recognizerCall` — `SpeechRecognizer.__call__`
  (src/google_api.py, lines 24-58), with the HTTP transport as an oracle.
* `handlerRunEvents` — the statement order of `AbstractStreamHandler.run`
  (src/main.py, lines 62-76) as an event trace.

Machine floats in the source (`0.8 * N`, `0.9 * N`, `len * rate / input_rate`)
are rendered with exact integer arithmetic; for the integer operand ranges
the program uses, the float comparisons agree with the exact ones.
-/

/-! ### Voice activity segmenter (vad_generator) -/

/-- Configuration of `VoiceActivityDetector`: `NUM_PADDING_CHUNKS`
(`padding_duration_ms / chunk_duration_ms`, default 50) and
`NUM_WINDOW_CHUNKS` (`400 / chunk_duration_ms`, default 13).
`NUM_WINDOW_CHUNKS_END` is `NUM_WINDOW_CHUNKS * 2` as in the source. -/
structure VadCfg where
  numPaddingChunks : Nat
  numWindowChunks : Nat
deriving DecidableEq

/-- One normalized chunk: its sample data (int16 samples; two bytes per
sample) and the voiced flag computed for it by `vad.is_speech`. -/
structure Chunk where
  data : List Int
  voiced : Bool
deriving DecidableEq

/-- The mutable loop state of `vad_generator`: the padding deque
`ring_buffer`, the `triggered` flag, the accumulated `voiced_frames`, and the
two circular flag windows with their write indices. -/
structure VadState where
  ringBuffer : List (List Int)
  triggered : Bool
  voicedFrames : List (List Int)
  ringBufferFlags : List Nat
  ringBufferIndex : Nat
  ringBufferFlagsEnd : List Nat
  ringBufferIndexEnd : Nat
deriving DecidableEq

/-- `collections.deque(maxlen := m).append(x)`: append on the right, keep the
most recent `m` elements. -/
def dequeAppend (maxlen : Nat) (xs : List (List Int)) (x : List Int) :
    List (List Int) :=
  (xs ++ [x]).drop (xs.length + 1 - maxlen)

/-- The loop body of `vad_generator` for one chunk
(src/voice_activity_detector.py lines 137-163).  Returns the next state and
the utterance yielded at this step, if any.

The float comparisons of the source are rendered exactly:
`num_voiced > 0.8 * NUM_WINDOW_CHUNKS` as `5 * num_voiced > 4 * N` and
`num_unvoiced > 0.90 * NUM_WINDOW_CHUNKS_END` as `10 * num_unvoiced > 9 * 2N`. -/
def vadStep (cfg : VadCfg) (s : VadState) (c : Chunk) :
    VadState × Option (List Int) :=
  let flag : Nat := if c.voiced then 1 else 0
  let rbf := s.ringBufferFlags.set s.ringBufferIndex flag
  let rbi := (s.ringBufferIndex + 1) % cfg.numWindowChunks
  let rbfEnd := s.ringBufferFlagsEnd.set s.ringBufferIndexEnd flag
  let rbiEnd := (s.ringBufferIndexEnd + 1) % (cfg.numWindowChunks * 2)
  if s.triggered = false then
    -- not triggered: chunk goes to the padding deque, then check start
    let rb := dequeAppend cfg.numPaddingChunks s.ringBuffer c.data
    if 5 * rbf.sum > 4 * cfg.numWindowChunks then
      ({ ringBuffer := [], triggered := true,
         voicedFrames := s.voicedFrames ++ rb,
         ringBufferFlags := rbf, ringBufferIndex := rbi,
         ringBufferFlagsEnd := rbfEnd, ringBufferIndexEnd := rbiEnd }, none)
    else
      ({ ringBuffer := rb, triggered := false,
         voicedFrames := s.voicedFrames,
         ringBufferFlags := rbf, ringBufferIndex := rbi,
         ringBufferFlagsEnd := rbfEnd, ringBufferIndexEnd := rbiEnd }, none)
  else
    -- triggered: chunk goes to voiced_frames AND to the padding deque
    let vf := s.voicedFrames ++ [c.data]
    let rb := dequeAppend cfg.numPaddingChunks s.ringBuffer c.data
    if 10 * (cfg.numWindowChunks * 2 - rbfEnd.sum) >
        9 * (cfg.numWindowChunks * 2) then
      ({ ringBuffer := rb, triggered := false, voicedFrames := [],
         ringBufferFlags := rbf, ringBufferIndex := rbi,
         ringBufferFlagsEnd := rbfEnd, ringBufferIndexEnd := rbiEnd },
       some vf.flatten)
    else
      ({ ringBuffer := rb, triggered := true, voicedFrames := vf,
         ringBufferFlags := rbf, ringBufferIndex := rbi,
         ringBufferFlagsEnd := rbfEnd, ringBufferIndexEnd := rbiEnd }, none)

/-- Run the segmenter loop over a list of incoming chunks, collecting the
yielded utterances in order. -/
def vadRun (cfg : VadCfg) (s : VadState) :
    List Chunk → VadState × List (List Int)
  | [] => (s, [])
  | c :: cs =>
    ((vadRun cfg (vadStep cfg s c).1 cs).1,
      (vadStep cfg s c).2.toList ++ (vadRun cfg (vadStep cfg s c).1 cs).2)

/-- The state at entry of the generator loop (lines 126-133): empty deque,
not triggered, no accumulated frames, both flag windows all zero. -/
def initVadState (cfg : VadCfg) : VadState :=
  { ringBuffer := [], triggered := false, voicedFrames := [],
    ringBufferFlags := List.replicate cfg.numWindowChunks 0,
    ringBufferIndex := 0,
    ringBufferFlagsEnd := List.replicate (cfg.numWindowChunks * 2) 0,
    ringBufferIndexEnd := 0 }

/-- State reached from `s` after consuming the first `k` chunks. -/
def stateAfterFrom (cfg : VadCfg) (s : VadState) (chunks : List Chunk)
    (k : Nat) : VadState :=
  (vadRun cfg s (chunks.take k)).1

/-- The Idle-to-Recording condition of line 150: the fraction of voiced flags
in the short window exceeds 0.8 (exactly: `5 * sum > 4 * N`). -/
def startCond (cfg : VadCfg) (s : VadState) : Prop :=
  5 * s.ringBufferFlags.sum > 4 * cfg.numWindowChunks

/-- The Recording-to-Idle condition of line 159: the fraction of unvoiced
flags in the long window exceeds 0.9 (exactly: `10 * (2N - sum) > 9 * 2N`). -/
def endCond (cfg : VadCfg) (s : VadState) : Prop :=
  10 * (cfg.numWindowChunks * 2 - s.ringBufferFlagsEnd.sum) >
    9 * (cfg.numWindowChunks * 2)

/-! ### Helper lemmas about the segmenter step -/

theorem stateAfterFrom_zero (cfg : VadCfg) (s : VadState) (chunks : List Chunk) :
    stateAfterFrom cfg s chunks 0 = s := rfl

theorem stateAfterFrom_cons_succ (cfg : VadCfg) (s : VadState) (c : Chunk)
    (cs : List Chunk) (k : Nat) :
    stateAfterFrom cfg s (c :: cs) (k + 1) =
      stateAfterFrom cfg (vadStep cfg s c).1 cs k := rfl

theorem vadRun_cons_snd (cfg : VadCfg) (s : VadState) (c : Chunk)
    (cs : List Chunk) :
    (vadRun cfg s (c :: cs)).2 =
      (vadStep cfg s c).2.toList ++ (vadRun cfg (vadStep cfg s c).1 cs).2 := rfl

theorem vadStep_idle_out (cfg : VadCfg) (s : VadState) (c : Chunk)
    (h : s.triggered = false) : (vadStep cfg s c).2 = none := by
  simp only [vadStep, h]
  split_ifs <;> rfl

theorem vadStep_idle_triggered (cfg : VadCfg) (s : VadState) (c : Chunk)
    (h : s.triggered = false) :
    ((vadStep cfg s c).1.triggered = true ↔ startCond cfg (vadStep cfg s c).1) := by
  simp only [vadStep, h]
  split_ifs <;> simp_all [startCond]

theorem vadStep_rec_cases (cfg : VadCfg) (s : VadState) (c : Chunk)
    (h : s.triggered = true) :
    (endCond cfg (vadStep cfg s c).1 →
      (vadStep cfg s c).2 = some (s.voicedFrames ++ [c.data]).flatten ∧
      (vadStep cfg s c).1.triggered = false) ∧
    (¬ endCond cfg (vadStep cfg s c).1 →
      (vadStep cfg s c).2 = none ∧ (vadStep cfg s c).1.triggered = true) := by
  simp only [vadStep, h]
  split_ifs <;> constructor <;> intro he <;> simp_all [endCond] <;> omega

/-- Emission characterization for a run from an arbitrary state: from a
triggered state an utterance is emitted iff the long-window end condition
holds at some step; from an idle state iff the short-window start condition
holds at some step followed strictly later by the end condition. -/
theorem vadRun_emit_characterization (cfg : VadCfg) (chunks : List Chunk) :
    ∀ s : VadState,
      (s.triggered = true →
        ((vadRun cfg s chunks).2 ≠ [] ↔
          ∃ j, j < chunks.length ∧
            endCond cfg (stateAfterFrom cfg s chunks (j + 1)))) ∧
      (s.triggered = false →
        ((vadRun cfg s chunks).2 ≠ [] ↔
          ∃ i j, i < j ∧ j < chunks.length ∧
            startCond cfg (stateAfterFrom cfg s chunks (i + 1)) ∧
            endCond cfg (stateAfterFrom cfg s chunks (j + 1)))) := by
  induction chunks with
  | nil =>
    intro s
    constructor <;> intro _h <;> simp [vadRun]
  | cons c cs ih =>
    intro s
    constructor
    · intro ht
      by_cases he : endCond cfg (vadStep cfg s c).1
      · have hout := ((vadStep_rec_cases cfg s c ht).1 he).1
        constructor
        · intro _
          exact ⟨0, Nat.succ_pos _, he⟩
        · intro _
          rw [vadRun_cons_snd, hout]
          simp
      · have hout := ((vadStep_rec_cases cfg s c ht).2 he).1
        have ht1 := ((vadStep_rec_cases cfg s c ht).2 he).2
        have IH := (ih (vadStep cfg s c).1).1 ht1
        rw [vadRun_cons_snd, hout]
        simp only [Option.toList_none, List.nil_append]
        rw [IH]
        constructor
        · rintro ⟨j, hj, hje⟩
          exact ⟨j + 1, by simpa using Nat.succ_lt_succ hj, hje⟩
        · rintro ⟨j, hj, hje⟩
          cases j with
          | zero => exact absurd hje he
          | succ j' =>
            refine ⟨j', ?_, hje⟩
            simpa using hj
    · intro ht
      have hout := vadStep_idle_out cfg s c ht
      rw [vadRun_cons_snd, hout]
      simp only [Option.toList_none, List.nil_append]
      by_cases hsc : startCond cfg (vadStep cfg s c).1
      · have ht1 : (vadStep cfg s c).1.triggered = true :=
          (vadStep_idle_triggered cfg s c ht).2 hsc
        have IH := (ih (vadStep cfg s c).1).1 ht1
        rw [IH]
        constructor
        · rintro ⟨j, hj, hje⟩
          exact ⟨0, j + 1, Nat.succ_pos _,
            by simpa using Nat.succ_lt_succ hj, hsc, hje⟩
        · rintro ⟨i, j, hij, hj, _his, hje⟩
          cases j with
          | zero => exact absurd hij (Nat.not_lt_zero i)
          | succ j' =>
            refine ⟨j', ?_, hje⟩
            simpa using hj
      · have ht1 : (vadStep cfg s c).1.triggered = false := by
          cases hb : (vadStep cfg s c).1.triggered
          · rfl
          · exact absurd ((vadStep_idle_triggered cfg s c ht).1 hb) hsc
        have IH := (ih (vadStep cfg s c).1).2 ht1
        rw [IH]
        constructor
        · rintro ⟨i, j, hij, hj, his, hje⟩
          exact ⟨i + 1, j + 1, Nat.succ_lt_succ hij,
            by simpa using Nat.succ_lt_succ hj, his, hje⟩
        · rintro ⟨i, j, hij, hj, his, hje⟩
          cases i with
          | zero => exact absurd his hsc
          | succ i' =>
            cases j with
            | zero => exact absurd hij (by omega)
            | succ j' =>
              refine ⟨i', j', by omega, ?_, his, hje⟩
              simpa using hj


/-- Claim C1: for every input stream of normalized chunks, the segmenter
emits an utterance if and only if at some point the fraction of voiced flags
in the short ring window exceeds 0.8 and at some strictly later point the
fraction of unvoiced flags in the long ring window exceeds 0.9; moreover a
step yields an utterance exactly at a Recording-to-Idle transition, i.e. when
the machine is triggered, the end condition holds after the step, and the
step leaves the triggered state. -/
theorem vad_utterance_emitted_iff (cfg : VadCfg) (chunks : List Chunk) :
    ((vadRun cfg (initVadState cfg) chunks).2 ≠ [] ↔
      ∃ i j, i < j ∧ j < chunks.length ∧
        startCond cfg (stateAfterFrom cfg (initVadState cfg) chunks (i + 1)) ∧
        endCond cfg (stateAfterFrom cfg (initVadState cfg) chunks (j + 1))) ∧
    (∀ (s : VadState) (c : Chunk),
      ((vadStep cfg s c).2 ≠ none ↔
        s.triggered = true ∧ endCond cfg (vadStep cfg s c).1 ∧
          (vadStep cfg s c).1.triggered = false)) := by
  constructor
  · exact (vadRun_emit_characterization cfg chunks (initVadState cfg)).2 rfl
  · intro s c
    cases hb : s.triggered
    · have hout := vadStep_idle_out cfg s c hb
      simp [hout, hb]
    · by_cases he : endCond cfg (vadStep cfg s c).1
      · have h1 := (vadStep_rec_cases cfg s c hb).1 he
        simp [h1.1, h1.2, he]
      · have h2 := (vadStep_rec_cases cfg s c hb).2 he
        simp [h2.1, he]

/-! ### Claim C2: frame routing, utterance length, padding duplication -/

instance (cfg : VadCfg) (s : VadState) : Decidable (startCond cfg s) :=
  inferInstanceAs (Decidable (4 * cfg.numWindowChunks < 5 * s.ringBufferFlags.sum))

instance (cfg : VadCfg) (s : VadState) : Decidable (endCond cfg s) :=
  inferInstanceAs (Decidable (9 * (cfg.numWindowChunks * 2) <
    10 * (cfg.numWindowChunks * 2 - s.ringBufferFlagsEnd.sum)))

theorem startCond_step (cfg : VadCfg) (s : VadState) (c : Chunk) :
    startCond cfg (vadStep cfg s c).1 ↔
      5 * (s.ringBufferFlags.set s.ringBufferIndex
            (if c.voiced then 1 else 0)).sum > 4 * cfg.numWindowChunks := by
  simp only [vadStep]
  split_ifs <;> simp_all [startCond]

theorem endCond_step (cfg : VadCfg) (s : VadState) (c : Chunk) :
    endCond cfg (vadStep cfg s c).1 ↔
      10 * (cfg.numWindowChunks * 2 -
            (s.ringBufferFlagsEnd.set s.ringBufferIndexEnd
              (if c.voiced then 1 else 0)).sum) >
        9 * (cfg.numWindowChunks * 2) := by
  simp only [vadStep]
  split_ifs <;> simp_all [endCond]

theorem sum_map_length_const (l : List (List Int)) (n : Nat)
    (h : ∀ f ∈ l, f.length = n) : (l.map List.length).sum = l.length * n := by
  induction l with
  | nil => simp
  | cons a t ih =>
    have ha := h a (List.mem_cons_self a t)
    have ht := ih (fun f hf => h f (List.mem_cons_of_mem a hf))
    simp only [List.map_cons, List.sum_cons, ha, ht, List.length_cons]
    ring

/-- Claim C2 (amended): routing of one chunk by the segmenter step.  While
Idle without trigger the chunk goes only to the padding deque; on an
Idle-to-Recording transition the whole padding deque (current chunk included)
moves into the accumulator and the deque is cleared; while Recording the
chunk is appended BOTH to the accumulator (line 156) and to the padding deque
(line 157), and the deque is not cleared on emission; a yielded utterance is
the concatenation of the accumulated frames, so when every accumulated frame
has n samples (2n bytes, int16) the utterance byte length is the frame count
times the frame byte size. -/
theorem vad_frame_routing (cfg : VadCfg) (s : VadState) (c : Chunk) :
    (s.triggered = false → ¬ startCond cfg (vadStep cfg s c).1 →
      (vadStep cfg s c).1.voicedFrames = s.voicedFrames ∧
      (vadStep cfg s c).1.ringBuffer =
        dequeAppend cfg.numPaddingChunks s.ringBuffer c.data ∧
      (vadStep cfg s c).2 = none) ∧
    (s.triggered = false → startCond cfg (vadStep cfg s c).1 →
      (vadStep cfg s c).1.voicedFrames =
        s.voicedFrames ++ dequeAppend cfg.numPaddingChunks s.ringBuffer c.data ∧
      (vadStep cfg s c).1.ringBuffer = [] ∧
      (vadStep cfg s c).2 = none) ∧
    (s.triggered = true →
      (vadStep cfg s c).1.ringBuffer =
        dequeAppend cfg.numPaddingChunks s.ringBuffer c.data ∧
      (¬ endCond cfg (vadStep cfg s c).1 →
        (vadStep cfg s c).1.voicedFrames = s.voicedFrames ++ [c.data]) ∧
      (endCond cfg (vadStep cfg s c).1 →
        (vadStep cfg s c).2 = some (s.voicedFrames ++ [c.data]).flatten ∧
        (vadStep cfg s c).1.voicedFrames = [])) ∧
    (∀ u n, (vadStep cfg s c).2 = some u →
      (∀ f ∈ s.voicedFrames, f.length = n) → c.data.length = n →
      2 * u.length = (s.voicedFrames.length + 1) * (2 * n)) := by
  refine ⟨?_, ?_, ?_, ?_⟩
  · intro ht hsc
    rw [startCond_step cfg s c] at hsc
    simp [vadStep, ht, hsc]
  · intro ht hsc
    rw [startCond_step cfg s c] at hsc
    simp [vadStep, ht, hsc]
  · intro ht
    refine ⟨?_, ?_, ?_⟩
    · simp only [vadStep, ht]
      split_ifs <;> simp_all
    · intro he
      rw [endCond_step cfg s c] at he
      simp [vadStep, ht, he]
    · intro he
      rw [endCond_step cfg s c] at he
      simp [vadStep, ht, he]
  · intro u n hu hall hcn
    have hb : s.triggered = true := by
      cases hb' : s.triggered
      · rw [vadStep_idle_out cfg s c hb'] at hu
        exact absurd hu (by simp)
      · rfl
    by_cases he : endCond cfg (vadStep cfg s c).1
    · have h1 := (vadStep_rec_cases cfg s c hb).1 he
      rw [h1.1] at hu
      have hu' : (s.voicedFrames ++ [c.data]).flatten = u := Option.some.inj hu
      subst hu'
      have h2 := sum_map_length_const s.voicedFrames n hall
      have h3 : ([c.data].map List.length).sum = n := by simp [hcn]
      rw [List.length_flatten, List.map_append, List.sum_append, h2, h3]
      ring
    · have h4 := (vadStep_rec_cases cfg s c hb).2 he
      rw [h4.1] at hu
      exact absurd hu (by simp)

def c2CexCfg : VadCfg := { numPaddingChunks := 2, numWindowChunks := 1 }

def c2CexChunks : List Chunk :=
  [ { data := [1], voiced := true }, { data := [2], voiced := false },
    { data := [3], voiced := false }, { data := [4], voiced := true },
    { data := [5], voiced := false }, { data := [6], voiced := false } ]

/-- Counterexample to claim C2 as stated: with padding capacity 2 and short
window length 1, six pairwise distinct chunks produce two consecutive
utterances that both contain the chunk with data [3].  While Recording that
chunk was appended to the padding deque as well as to the accumulator, and
the deque is not cleared on emission, so the flush at the second trigger
replays it into the next utterance. -/
theorem vad_chunk_duplication_cex :
    (vadRun c2CexCfg (initVadState c2CexCfg) c2CexChunks).2 =
      [[1, 2, 3], [3, 4, 5, 6]] ∧
    (3 : Int) ∈ ([1, 2, 3] : List Int) ∧
    (3 : Int) ∈ ([3, 4, 5, 6] : List Int) := by
  refine ⟨by decide, by decide, by decide⟩

def c2RoutState : VadState :=
  { ringBuffer := [], triggered := true, voicedFrames := [[7]],
    ringBufferFlags := [1], ringBufferIndex := 0,
    ringBufferFlagsEnd := [1, 0], ringBufferIndexEnd := 0 }

def c2RoutChunk : Chunk := { data := [8], voiced := false }

/-- Witness for `vad_frame_routing` at a concrete triggered state. -/
theorem vad_frame_routing_witness :
    (vadStep c2CexCfg c2RoutState c2RoutChunk).1.ringBuffer =
      dequeAppend c2CexCfg.numPaddingChunks c2RoutState.ringBuffer
        c2RoutChunk.data ∧
    (vadStep c2CexCfg c2RoutState c2RoutChunk).2 =
      some (c2RoutState.voicedFrames ++ [c2RoutChunk.data]).flatten ∧
    2 * ([7, 8] : List Int).length =
      (c2RoutState.voicedFrames.length + 1) * (2 * 1) := by
  have h := vad_frame_routing c2CexCfg c2RoutState c2RoutChunk
  refine ⟨(h.2.2.1 rfl).1, ((h.2.2.1 rfl).2.2 (by decide)).1, ?_⟩
  exact h.2.2.2 [7, 8] 1 (by decide) (by decide) (by decide)

/-! ### Frame normalizer (resample_and_convert_chunk) -/

/-- Group an interleaved sample buffer into consecutive rows of `c` samples,
mirroring numpy reshape(-1, c); the fuel argument bounds the recursion by the
list length. -/
def reshapeRowsAux (c : Nat) : Nat → List Int → List (List Int)
  | 0, _ => []
  | _, [] => []
  | Nat.succ fuel, x :: xs =>
    ((x :: xs).take c) :: reshapeRowsAux c fuel ((x :: xs).drop c)

def reshapeRows (c : Nat) (xs : List Int) : List (List Int) :=
  reshapeRowsAux c xs.length xs

/-- numpy `mean(axis=1).astype(np.int16)` on a reshaped buffer: per row the
arithmetic mean of the `c` channel samples, truncated toward zero
(`Int.tdiv`), exactly as float-to-int conversion truncates. -/
def downmixMean (c : Nat) (xs : List Int) : List Int :=
  (reshapeRows c xs).map (fun g => Int.tdiv g.sum (Int.ofNat c))

/-- `VoiceActivityDetector.resample_and_convert_chunk` (lines 113-123).  `R`
is the external `scipy.signal.resample`, which returns the requested number
of samples.  `int(len * rate / input_rate)` is rendered as Nat floor
division.  Note line 123 returns the ORIGINAL `chunk` whenever the rates
match, even when a multi-channel downmix was computed. -/
def resample_and_convert_chunk (R : List Int → Nat → List Int)
    (inputChannels inputRate rate : Nat) (chunk : List Int) : List Int :=
  let audio1 := if 1 < inputChannels then downmixMean inputChannels chunk
                else chunk
  if inputRate ≠ rate then R audio1 (audio1.length * rate / inputRate)
  else chunk

/-- Claim C3 (code bug evaluation): with two channels and matching rates the
normalizer returns the original interleaved stereo chunk unchanged — the
final line returns `chunk`, not the downmixed mono data — although the mono
downmix of [0, 100] is [50]. -/
theorem normalizer_stereo_passthrough_bug :
    resample_and_convert_chunk (fun d _ => d) 2 16000 16000 [0, 100] =
      [0, 100] ∧
    downmixMean 2 [0, 100] = [50] ∧
    resample_and_convert_chunk (fun d _ => d) 2 16000 16000 [0, 100] ≠
      [50] := by
  refine ⟨by decide, by decide, by decide⟩

/-- Modelled from the spec: `round(L * Rout / Rin)` as the nearest integer
(ties rounded up); only used to compare the code's requested output length
against the spec's formula. -/
def roundDiv (a b : Nat) : Nat := (2 * a + b) / (2 * b)

/-- Claim C8: for a mono chunk of length L at native rate Rin ≠ Rout, the
code asks the resampler for exactly floor(L * Rout / Rin) samples; that count
satisfies Rin * n ≤ L * Rout < Rin * (n + 1) and lies within one sample of
the spec's round(L * Rout / Rin). -/
theorem resample_output_length (R : List Int → Nat → List Int)
    (hR : ∀ d n, (R d n).length = n)
    (inputRate rate : Nat) (hir : 0 < inputRate) (hne : inputRate ≠ rate)
    (chunk : List Int) :
    (resample_and_convert_chunk R 1 inputRate rate chunk).length =
      chunk.length * rate / inputRate ∧
    inputRate * (chunk.length * rate / inputRate) ≤ chunk.length * rate ∧
    chunk.length * rate < inputRate * (chunk.length * rate / inputRate + 1) ∧
    chunk.length * rate / inputRate ≤ roundDiv (chunk.length * rate) inputRate ∧
    roundDiv (chunk.length * rate) inputRate ≤
      chunk.length * rate / inputRate + 1 := by
  have hlen : (resample_and_convert_chunk R 1 inputRate rate chunk).length =
      chunk.length * rate / inputRate := by
    simp [resample_and_convert_chunk, hne, hR]
  have hdm := Nat.div_add_mod (chunk.length * rate) inputRate
  have hmlt := Nat.mod_lt (chunk.length * rate) hir
  have hexp : inputRate * (chunk.length * rate / inputRate + 1) =
      inputRate * (chunk.length * rate / inputRate) + inputRate := by ring
  have hhalf : 2 * (chunk.length * rate) / (2 * inputRate) =
      chunk.length * rate / inputRate :=
    Nat.mul_div_mul_left (chunk.length * rate) inputRate (by omega)
  have hlow : chunk.length * rate / inputRate ≤
      roundDiv (chunk.length * rate) inputRate := by
    simp only [roundDiv]
    rw [← hhalf]
    exact Nat.div_le_div_right (Nat.le_add_right _ _)
  have hup : roundDiv (chunk.length * rate) inputRate ≤
      chunk.length * rate / inputRate + 1 := by
    simp only [roundDiv]
    rw [← hhalf]
    calc (2 * (chunk.length * rate) + inputRate) / (2 * inputRate)
        ≤ (2 * (chunk.length * rate) + 2 * inputRate) / (2 * inputRate) :=
          Nat.div_le_div_right (by omega)
      _ = 2 * (chunk.length * rate) / (2 * inputRate) + 1 :=
          Nat.add_div_right _ (by omega)
  exact ⟨hlen, by omega, by omega, hlow, hup⟩

/-- Witness for `resample_output_length` at a concrete 480-sample chunk,
48 kHz native rate, 16 kHz working rate. -/
theorem resample_output_length_witness :
    (resample_and_convert_chunk (fun _ n => List.replicate n 0) 1 48000 16000
        (List.replicate 480 (0 : Int))).length =
      (List.replicate 480 (0 : Int)).length * 16000 / 48000 ∧
    roundDiv ((List.replicate 480 (0 : Int)).length * 16000) 48000 ≤
      (List.replicate 480 (0 : Int)).length * 16000 / 48000 + 1 := by
  have h := resample_output_length (fun _ n => List.replicate n 0)
    (fun d n => List.length_replicate n 0) 48000 16000 (by omega) (by omega)
    (List.replicate 480 (0 : Int))
  exact ⟨h.1, h.2.2.2.2⟩

/-! ### Sentence translator (SentenceTranslator.__call__) -/

/-- Python `s[-1] == "\x0a"` after an index check: the last character is a
newline. -/
def lastCharIsNewline (s : String) : Bool := s.data.getLast? == some '\n'

/-- Python `str.strip()`: drop whitespace at both ends. -/
def pyStrip (s : String) : String :=
  String.mk (((s.data.dropWhile Char.isWhitespace).reverse.dropWhile
    Char.isWhitespace).reverse)

/-- `AbstractProcessor.process_result_of_queue_processing` (src/main.py lines
176-180): the translated text is surfaced iff it is present, non-empty and
not whitespace-only. -/
def surfacesText : Option String → Bool
  | none => false
  | some t => !(t == "") && !(pyStrip t == "")

/-- `SentenceTranslator.__call__` (src/google_api.py lines 135-175).
`oracle i` is the value the GoogleTranslate contract would produce on its
(i+1)-th completed invocation (`none` models the paths that return `None`).
The result is paired with the number of retry-loop iterations that began.

The embedding follows the source faithfully, including its defect: the retry
body evaluates `self.GoogleTranslate(...).text`, and `.text` on the
un-awaited coroutine object raises AttributeError before any network call,
so the outer exception handler returns `None` after the first retry
iteration and the contract is never consulted a second time.  Likewise
`translated_sentence[-1]` raises on a `None` or empty first result, which
the outer handler also turns into `None`.  The loop guard
`fail_to_translate and patience` enters the loop iff the sentinel was seen
and `patience` is a non-zero integer. -/
def sentenceTranslatorCall (oracle : Nat → Option String) (patience : Int)
    (sentence : String) : Option String × Nat :=
  if sentence = "" then (none, 0)
  else
    match oracle 0 with
    | none => (none, 0)
    | some t0 =>
      if t0 = "" then (none, 0)
      else if lastCharIsNewline t0 = true ∧ patience ≠ 0 then (none, 1)
      else (some t0, 0)

def c4Oracle : Nat → Option String
  | 0 => some "echec un\n"
  | 1 => some "echec deux\n"
  | _ => some "reussite"

/-- Claim C4 (code bug evaluation): with patience = 2 and a contract that
fails twice then succeeds, the translator does not retry twice and does not
return the success text: the single retry iteration that begins aborts with
AttributeError and the call resolves to `None`, which the pipeline does not
surface. -/
theorem translator_retry_aborts :
    sentenceTranslatorCall c4Oracle 2 "hello" = (none, 1) ∧
    surfacesText (sentenceTranslatorCall c4Oracle 2 "hello").1 = false := by
  refine ⟨by decide, by decide⟩

def c5Oracle : Nat → Option String := fun _ => some "la panne\n"

/-- Counterexample to claim C5 as stated: with patience = 0 and a contract
that always returns sentinel-terminated text, the translator performs no
retry iteration but returns the sentinel text itself, and the pipeline
surfaces it because its stripped form is non-empty — contrary to the claim
that no text is surfaced. -/
theorem translator_patience_zero_cex :
    sentenceTranslatorCall c5Oracle 0 "hello" = (some "la panne\n", 0) ∧
    surfacesText (sentenceTranslatorCall c5Oracle 0 "hello").1 = true := by
  refine ⟨by decide, by decide⟩

/-- Claim C5 (amended): if patience = 0 and the contract returns a
sentinel-terminated failure on the first call, the translator performs no
retry iteration and returns the sentinel-terminated text unchanged; the
pipeline then surfaces that text exactly when its whitespace-stripped form
is non-empty. -/
theorem translator_patience_zero (oracle : Nat → Option String)
    (sentence t0 : String) (hs : sentence ≠ "") (h0 : oracle 0 = some t0)
    (ht : t0 ≠ "") (_hnl : lastCharIsNewline t0 = true) :
    sentenceTranslatorCall oracle 0 sentence = (some t0, 0) ∧
    (surfacesText (sentenceTranslatorCall oracle 0 sentence).1 = true ↔
      pyStrip t0 ≠ "") := by
  have hcall : sentenceTranslatorCall oracle 0 sentence = (some t0, 0) := by
    simp [sentenceTranslatorCall, hs, h0, ht]
  refine ⟨hcall, ?_⟩
  rw [hcall]
  simp [surfacesText, ht]

/-- Witness for `translator_patience_zero` at a concrete failing contract. -/
theorem translator_patience_zero_witness :
    sentenceTranslatorCall c5Oracle 0 "hello" = (some "la panne\n", 0) ∧
    (surfacesText (sentenceTranslatorCall c5Oracle 0 "hello").1 = true ↔
      pyStrip "la panne\n" ≠ "") :=
  translator_patience_zero c5Oracle "hello" "la panne\n" (by decide) rfl
    (by decide) (by decide)

/-! ### Speech recognizer (SpeechRecognizer.__call__) -/

/-- One transport attempt: either the POST raised (swallowed by `continue`),
or a response arrived whose lines each either parse to a transcript or fail
to parse (the per-line `except: continue`). -/
inductive HttpAttempt where
  | transportFail : HttpAttempt
  | success : List (Option String) → HttpAttempt
deriving DecidableEq

/-- The transcript of the first response line whose JSON parse and field
lookups succeed, if any. -/
def firstSome : List (Option String) → Option String
  | [] => none
  | some t :: _ => some t
  | none :: rest => firstSome rest

/-- What an attempt contributes: nothing for a transport failure, else the
first parsed transcript of its response. -/
def attemptYields : HttpAttempt → Option String
  | HttpAttempt.transportFail => none
  | HttpAttempt.success lines => firstSome lines

/-- `line[:1].upper() + line[1:]`: the first character uppercased, the
remainder unchanged. -/
def capFirst (t : String) : String :=
  match t.data with
  | [] => ""
  | ch :: rest => String.mk (ch.toUpper :: rest)

/-- The attempt loop of `SpeechRecognizer.__call__` (lines 26-44): first
argument the current attempt index, second the remaining attempts.  A
transport failure is swallowed and the next attempt tried; a response with
no parseable line also falls through to the next attempt; the first parsed
transcript is returned capitalized; exhausting the attempts returns `none`. -/
def recognizerFrom (oracle : Nat → HttpAttempt) : Nat → Nat → Option String
  | _, 0 => none
  | i, k + 1 =>
    match oracle i with
    | HttpAttempt.transportFail => recognizerFrom oracle (i + 1) k
    | HttpAttempt.success lines =>
      match firstSome lines with
      | some t => some (capFirst t)
      | none => recognizerFrom oracle (i + 1) k

/-- `SpeechRecognizer.__call__`: up to `retries` attempts starting at 0. -/
def recognizerCall (retries : Nat) (oracle : Nat → HttpAttempt) :
    Option String :=
  recognizerFrom oracle 0 retries

theorem recognizerFrom_all_fail (oracle : Nat → HttpAttempt) :
    ∀ (k i : Nat), (∀ j, j < k → attemptYields (oracle (i + j)) = none) →
      recognizerFrom oracle i k = none := by
  intro k
  induction k with
  | zero => intro i _; rfl
  | succ k ih =>
    intro i h
    have h0 := h 0 (Nat.succ_pos k)
    simp only [Nat.add_zero] at h0
    have hrest : ∀ j, j < k → attemptYields (oracle (i + 1 + j)) = none := by
      intro j hj
      have e : i + (j + 1) = i + 1 + j := by omega
      have hh := h (j + 1) (by omega)
      rw [e] at hh
      exact hh
    cases ho : oracle i with
    | transportFail =>
      simp only [recognizerFrom, ho]
      exact ih (i + 1) hrest
    | success lines =>
      rw [ho] at h0
      simp only [attemptYields] at h0
      simp only [recognizerFrom, ho, h0]
      exact ih (i + 1) hrest

theorem recognizerFrom_congr (oracle oracle' : Nat → HttpAttempt) :
    ∀ (k i : Nat), (∀ j, j < k → oracle (i + j) = oracle' (i + j)) →
      recognizerFrom oracle i k = recognizerFrom oracle' i k := by
  intro k
  induction k with
  | zero => intro i _; rfl
  | succ k ih =>
    intro i h
    have h0 := h 0 (Nat.succ_pos k)
    simp only [Nat.add_zero] at h0
    have hrest : ∀ j, j < k → oracle (i + 1 + j) = oracle' (i + 1 + j) := by
      intro j hj
      have e : i + (j + 1) = i + 1 + j := by omega
      have hh := h (j + 1) (by omega)
      rw [e] at hh
      exact hh
    cases ho : oracle' i with
    | transportFail =>
      have ho' : oracle i = HttpAttempt.transportFail := h0.trans ho
      simp only [recognizerFrom, ho, ho']
      exact ih (i + 1) hrest
    | success lines =>
      have ho' : oracle i = HttpAttempt.success lines := h0.trans ho
      simp only [recognizerFrom, ho, ho']
      cases hf : firstSome lines with
      | some t => simp only [hf]
      | none =>
        simp only [hf]
        exact ih (i + 1) hrest

theorem recognizerFrom_shift (oracle : Nat → HttpAttempt) :
    ∀ (k i : Nat), recognizerFrom (fun m => oracle (m + 1)) i k =
      recognizerFrom oracle (i + 1) k := by
  intro k
  induction k with
  | zero => intro i; rfl
  | succ k ih =>
    intro i
    cases ho : oracle (i + 1) with
    | transportFail =>
      simp only [recognizerFrom, ho]
      exact ih (i + 1)
    | success lines =>
      simp only [recognizerFrom, ho]
      cases hf : firstSome lines with
      | some t => simp only [hf]
      | none =>
        simp only [hf]
        exact ih (i + 1)

/-- Claim C7: the recognizer performs at most `retries` attempts (its result
depends only on the attempts with index below `retries`), swallows a
transport failure on an attempt and proceeds with the remaining attempts,
and resolves to `none` — no exception reaching the caller — when every
attempt fails to produce a transcript. -/
theorem recognizer_retry_contract (retries : Nat)
    (oracle oracle' : Nat → HttpAttempt) :
    ((∀ i, i < retries → attemptYields (oracle i) = none) →
      recognizerCall retries oracle = none) ∧
    ((∀ i, i < retries → oracle i = oracle' i) →
      recognizerCall retries oracle = recognizerCall retries oracle') ∧
    (∀ n, retries = n + 1 → oracle 0 = HttpAttempt.transportFail →
      recognizerCall retries oracle =
        recognizerCall n (fun m => oracle (m + 1))) := by
  refine ⟨?_, ?_, ?_⟩
  · intro h
    exact recognizerFrom_all_fail oracle retries 0
      (fun j hj => by simpa using h j hj)
  · intro h
    exact recognizerFrom_congr oracle oracle' retries 0
      (fun j hj => by simpa using h j hj)
  · intro n hn h0
    subst hn
    show recognizerFrom oracle 0 (n + 1) =
      recognizerFrom (fun m => oracle (m + 1)) 0 n
    rw [recognizerFrom_shift oracle n 0]
    simp only [recognizerFrom, h0]

def c7Oracle : Nat → HttpAttempt := fun _ => HttpAttempt.transportFail

/-- Witness for `recognizer_retry_contract` with an always-failing
transport. -/
theorem recognizer_retry_contract_witness :
    recognizerCall 3 c7Oracle = none ∧
    recognizerCall 3 c7Oracle = recognizerCall 3 c7Oracle ∧
    recognizerCall 3 c7Oracle = recognizerCall 2 (fun m => c7Oracle (m + 1)) := by
  have h := recognizer_retry_contract 3 c7Oracle c7Oracle
  exact ⟨h.1 (fun i _ => rfl), h.2.1 (fun i _ => rfl), h.2.2 2 rfl rfl⟩

/-- Modelled from the spec wording of claim C10: upper(first char)
concatenated with the remainder of the raw transcript. -/
def specUpperFirst (s : String) : String :=
  String.mk ((s.data.take 1).map Char.toUpper ++ s.data.drop 1)

theorem capFirst_eq_specUpperFirst (s : String) :
    capFirst s = specUpperFirst s := by
  cases s with
  | mk l => cases l <;> simp [capFirst, specUpperFirst]

theorem recognizerFrom_some (oracle : Nat → HttpAttempt) :
    ∀ (k i : Nat) (t : String), recognizerFrom oracle i k = some t →
      ∃ j lines raw, i ≤ j ∧ j < i + k ∧
        oracle j = HttpAttempt.success lines ∧ firstSome lines = some raw ∧
        t = capFirst raw := by
  intro k
  induction k with
  | zero =>
    intro i t h
    exact absurd h (by simp [recognizerFrom])
  | succ k ih =>
    intro i t h
    cases ho : oracle i with
    | transportFail =>
      simp only [recognizerFrom, ho] at h
      obtain ⟨j, lines, raw, hij, hjk, hol, hfs, hcap⟩ := ih (i + 1) t h
      exact ⟨j, lines, raw, by omega, by omega, hol, hfs, hcap⟩
    | success lines =>
      simp only [recognizerFrom, ho] at h
      cases hf : firstSome lines with
      | none =>
        rw [hf] at h
        simp only at h
        obtain ⟨j, lines', raw, hij, hjk, hol, hfs, hcap⟩ := ih (i + 1) t h
        exact ⟨j, lines', raw, by omega, by omega, hol, hfs, hcap⟩
      | some raw =>
        rw [hf] at h
        simp only [Option.some.injEq] at h
        exact ⟨i, lines, raw, Nat.le_refl i, by omega, ho, hf, h.symm⟩

/-- Claim C10: any successful recognition result is the raw transcript of
the first parseable response line of some attempt, with its first character
converted to upper case and the rest of the text unchanged. -/
theorem recognizer_capitalizes (retries : Nat) (oracle : Nat → HttpAttempt)
    (t : String) (h : recognizerCall retries oracle = some t) :
    ∃ j lines raw, j < retries ∧ oracle j = HttpAttempt.success lines ∧
      firstSome lines = some raw ∧ t = capFirst raw ∧
      t = specUpperFirst raw := by
  obtain ⟨j, lines, raw, _hij, hjk, hol, hfs, hcap⟩ :=
    recognizerFrom_some oracle retries 0 t h
  exact ⟨j, lines, raw, by omega, hol, hfs, hcap,
    hcap.trans (capFirst_eq_specUpperFirst raw)⟩

def c10Oracle : Nat → HttpAttempt :=
  fun _ => HttpAttempt.success [none, some "bonjour"]

/-- Witness for `recognizer_capitalizes`: one attempt whose second line
parses to "bonjour" yields "Bonjour". -/
theorem recognizer_capitalizes_witness :
    ∃ j lines raw, j < 1 ∧ c10Oracle j = HttpAttempt.success lines ∧
      firstSome lines = some raw ∧ "Bonjour" = capFirst raw ∧
      "Bonjour" = specUpperFirst raw :=
  recognizer_capitalizes 1 c10Oracle "Bonjour" (by decide)

/-! ### Loopback device selection (LoopbackDeviceStrategy.select_device) -/

/-- The fields of a PyAudioWPatch device-info mapping that the strategy
reads. -/
structure PaDeviceInfo where
  index : Nat
  name : String
  isLoopbackDevice : Bool
  maxInputChannels : Nat
  defaultSampleRate : Nat
deriving DecidableEq

/-- The dictionary `select_device` returns. -/
structure SelectedDevice where
  index : Nat
  channels : Nat
  frame_rate : Nat
deriving DecidableEq

def startsWithChars : List Char → List Char → Bool
  | _, [] => true
  | [], _ :: _ => false
  | h :: hs, n :: ns => h == n && startsWithChars hs ns

def containsChars : List Char → List Char → Bool
  | [], needle => needle.isEmpty
  | h :: hs, needle =>
    startsWithChars (h :: hs) needle || containsChars hs needle

/-- Python `needle in hay` on strings: substring containment. -/
def pyInStr (needle hay : String) : Bool := containsChars hay.data needle.data

/-- `LoopbackDeviceStrategy.select_device` (lines 45-66): if the default
output device is loopback-capable it is used directly; otherwise the first
enumerated loopback device whose name contains the default output device's
name is selected (the `break` of the for-else), and if none matches the
for-else raises `RuntimeError("No suitable loopback device found.")`. -/
def selectLoopbackDevice (defaultSpeakers : PaDeviceInfo)
    (loopbacks : List PaDeviceInfo) : Except String SelectedDevice :=
  if defaultSpeakers.isLoopbackDevice then
    Except.ok { index := defaultSpeakers.index,
                channels := defaultSpeakers.maxInputChannels,
                frame_rate := defaultSpeakers.defaultSampleRate }
  else
    match loopbacks.find? (fun lb => pyInStr defaultSpeakers.name lb.name) with
    | some lb => Except.ok { index := lb.index,
                             channels := lb.maxInputChannels,
                             frame_rate := lb.defaultSampleRate }
    | none => Except.error "No suitable loopback device found."

/-- Claim C6: when the default output device is not loopback-capable, the
strategy fails with the fatal device-not-found error whenever no enumerated
loopback device's name contains the default output device's name — it never
substitutes a different device — and when a match exists the first matching
loopback device in enumeration order is selected.  The error is raised
inside `VoiceActivityDetector.__init__`, so Source construction fails. -/
theorem loopback_selection (ds : PaDeviceInfo) (lbs : List PaDeviceInfo)
    (hnl : ds.isLoopbackDevice = false) :
    ((∀ lb ∈ lbs, pyInStr ds.name lb.name = false) →
      selectLoopbackDevice ds lbs =
        Except.error "No suitable loopback device found.") ∧
    (∀ pre lb post, lbs = pre ++ lb :: post →
      (∀ x ∈ pre, pyInStr ds.name x.name = false) →
      pyInStr ds.name lb.name = true →
      selectLoopbackDevice ds lbs =
        Except.ok { index := lb.index, channels := lb.maxInputChannels,
                    frame_rate := lb.defaultSampleRate }) := by
  constructor
  · intro hall
    have hf : lbs.find? (fun lb => pyInStr ds.name lb.name) = none :=
      List.find?_eq_none.mpr (fun x hx => by simp [hall x hx])
    simp [selectLoopbackDevice, hnl, hf]
  · intro pre lb post hsplit hpre hmatch
    have hfpre : pre.find? (fun x => pyInStr ds.name x.name) = none :=
      List.find?_eq_none.mpr (fun x hx => by simp [hpre x hx])
    have hf : lbs.find? (fun x => pyInStr ds.name x.name) = some lb := by
      rw [hsplit, List.find?_append, hfpre]
      simp [List.find?_cons, hmatch]
    simp [selectLoopbackDevice, hnl, hf]

def c6DefaultOut : PaDeviceInfo :=
  { index := 0, name := "Speakers (Realtek)", isLoopbackDevice := false,
    maxInputChannels := 0, defaultSampleRate := 48000 }

def c6Loopbacks : List PaDeviceInfo :=
  [ { index := 7, name := "Microphone [Loopback]", isLoopbackDevice := true,
      maxInputChannels := 2, defaultSampleRate := 44100 },
    { index := 9, name := "Speakers (Realtek) [Loopback]",
      isLoopbackDevice := true, maxInputChannels := 2,
      defaultSampleRate := 48000 } ]

/-- Witness for `loopback_selection`: an empty loopback enumeration fails,
and with one non-matching and one matching device the matching one is
selected. -/
theorem loopback_selection_witness :
    selectLoopbackDevice c6DefaultOut [] =
      Except.error "No suitable loopback device found." ∧
    selectLoopbackDevice c6DefaultOut c6Loopbacks =
      Except.ok { index := 9, channels := 2, frame_rate := 48000 } := by
  constructor
  · exact (loopback_selection c6DefaultOut [] rfl).1 (by simp)
  · exact (loopback_selection c6DefaultOut c6Loopbacks rfl).2
      [{ index := 7, name := "Microphone [Loopback]",
         isLoopbackDevice := true, maxInputChannels := 2,
         defaultSampleRate := 44100 }]
      { index := 9, name := "Speakers (Realtek) [Loopback]",
        isLoopbackDevice := true, maxInputChannels := 2,
        defaultSampleRate := 48000 }
      [] rfl (by decide) (by decide)

/-! ### Stream handler start order (AbstractStreamHandler.run) -/

/-- Observable actions of the handler thread and the generator it drives. -/
inductive HandlerEvent where
  | setInitializedFlag
  | processorStart
  | streamStart
  | frameRead
deriving DecidableEq

/-- Events of `vad_generator` once first polled: it starts the device stream
(line 135) and then reads one chunk per iteration (line 137). -/
def vadGeneratorEvents (n : Nat) : List HandlerEvent :=
  HandlerEvent.streamStart :: List.replicate n HandlerEvent.frameRead

/-- Statement order of `AbstractStreamHandler.run` (src/main.py lines
62-76): `self.initialized = True` is the first statement, then
`self.processor.start()`, and only then does the for-loop poll the
generator, which starts the stream and produces frames. -/
def handlerRunEvents (n : Nat) : List HandlerEvent :=
  HandlerEvent.setInitializedFlag :: HandlerEvent.processorStart ::
    vadGeneratorEvents n

/-- Counterexample to claim C9 as stated: in the run trace with one frame,
the initialized flag is set at position 0 while the first frame is produced
at position 3 — the flag is true before the device stream produces any
frame. -/
theorem handler_initialized_early_cex :
    (handlerRunEvents 1).indexOf HandlerEvent.setInitializedFlag = 0 ∧
    (handlerRunEvents 1).indexOf HandlerEvent.frameRead = 3 := by
  refine ⟨by decide, by decide⟩

/-- Claim C9 (amended): the handler sets the initialized flag as its first
action — before the processor starts, before the device stream is started
and before any frame is produced — so readiness is reported without waiting
for frame production. -/
theorem handler_initialized_first (n : Nat) :
    (handlerRunEvents n).indexOf HandlerEvent.setInitializedFlag = 0 ∧
    HandlerEvent.frameRead ∉ (handlerRunEvents n).take 3 ∧
    (handlerRunEvents n).take 3 =
      [HandlerEvent.setInitializedFlag, HandlerEvent.processorStart,
        HandlerEvent.streamStart] := by
  refine ⟨?_, ?_, ?_⟩ <;> simp [handlerRunEvents, vadGeneratorEvents]
